import Mathlib

/-!
Shallow embedding of the record-propagation core of the go-boilerplate
repository: the message service (`internal/service/message_service.go`),
the sqlc queries it calls (`internal/db/queries.sql`), the Redis cache
adapter, the Kafka producer (`internal/kafka/producer.go`) and the
partition-consumer loop (`internal/kafka/consumer.go`).

UUIDs are abstracted as natural numbers; `uuidString` plays the role of
`uuid.UUID.String()`.  Timestamps are naturals; each database operation
receives the value of `CURRENT_TIMESTAMP` for its transaction as an
explicit argument.  Fallible collaborators (database pool, Redis, Kafka)
are driven by failure-injection flags in `Env`, mirroring the simulated
failures of the spec's testable properties.
-/

namespace GoBoilerplate

/-- `models.Message` (`internal/models/message.go`): id, content, the two
timestamps and the optional soft-delete marker.  The same shape serves as
the database row of the `messages` table, which carries exactly these
columns in `queries.sql`. -/
structure Message where
  id : Nat
  content : String
  createdAt : Nat
  updatedAt : Nat
  deletedAt : Option Nat
deriving Repr, DecidableEq

/-- `uuid.UUID.String()`: the string form of an identifier. -/
def uuidString (id : Nat) : String := toString id

/-- Rows of the `messages` table plus the sequence of identifiers the
database will assign (`uuid_generate_v4()` abstracted as a counter of
fresh ids). -/
structure DBState where
  rows : List Message
  nextId : Nat
deriving Repr, DecidableEq

/-- `-- name: CreateMessage :one` — `INSERT INTO messages (content)
VALUES ($1) RETURNING *`.  The id defaults to a fresh uuid, both
timestamps default to `CURRENT_TIMESTAMP` and the delete marker is null. -/
def dbCreateMessage (db : DBState) (now : Nat) (content : String) :
    Message × DBState :=
  let row : Message :=
    { id := db.nextId, content := content, createdAt := now,
      updatedAt := now, deletedAt := none }
  (row, { rows := db.rows ++ [row], nextId := db.nextId + 1 })

/-- `-- name: GetMessage :one` — `SELECT * FROM messages WHERE id = $1
AND deleted_at IS NULL`; `none` is sqlc's no-rows outcome. -/
def dbGetMessage (db : DBState) (id : Nat) : Option Message :=
  db.rows.find? fun r => r.id = id ∧ r.deletedAt = none

/-- `-- name: UpdateMessage :one` — `UPDATE messages SET content = $2,
updated_at = CURRENT_TIMESTAMP WHERE id = $1 AND deleted_at IS NULL
RETURNING *` (the `update_messages_updated_at` trigger also refreshes
`updated_at` to `CURRENT_TIMESTAMP`, the same value).  Returns the
updated row, or `none` when no live row matched. -/
def dbUpdateMessage (db : DBState) (now : Nat) (id : Nat)
    (content : String) : Option Message × DBState :=
  let upd : Message → Message := fun r =>
    if r.id = id ∧ r.deletedAt = none then
      { r with content := content, updatedAt := now }
    else r
  ((db.rows.find? fun r => r.id = id ∧ r.deletedAt = none).map
      fun r => { r with content := content, updatedAt := now },
    { db with rows := db.rows.map upd })

/-- `-- name: DeleteMessage :exec` — `UPDATE messages SET deleted_at =
CURRENT_TIMESTAMP WHERE id = $1 AND deleted_at IS NULL`.  A soft delete:
the row is kept and its marker set.  Being `:exec`, it reports no
rows-affected count and never a no-rows error. -/
def dbDeleteMessage (db : DBState) (now : Nat) (id : Nat) : DBState :=
  { db with
    rows := db.rows.map fun r =>
      if r.id = id ∧ r.deletedAt = none then
        { r with deletedAt := some now }
      else r }

/-- Stable insertion into a list kept in descending `created_at` order,
realising SQL's `ORDER BY created_at DESC`. -/
def insertByCreatedDesc (r : Message) : List Message → List Message
  | [] => [r]
  | x :: xs =>
    if r.createdAt ≤ x.createdAt then x :: insertByCreatedDesc r xs
    else r :: x :: xs

/-- Sort by `created_at` descending (insertion sort). -/
def sortByCreatedDesc (l : List Message) : List Message :=
  l.foldr insertByCreatedDesc []

/-- `-- name: ListMessages :many` — `SELECT * FROM messages WHERE
deleted_at IS NULL ORDER BY created_at DESC LIMIT $1 OFFSET $2`. -/
def dbListMessages (db : DBState) (lim off : Nat) : List Message :=
  (((sortByCreatedDesc (db.rows.filter fun r => r.deletedAt = none))).drop
      off).take lim

/-- `-- name: GetTotalMessages :one` — `SELECT COUNT(*) FROM messages
WHERE deleted_at IS NULL`. -/
def dbGetTotalMessages (db : DBState) : Nat :=
  (db.rows.filter fun r => r.deletedAt = none).length

/-- Failure injection for the service's collaborators: a database-pool
failure (fatal), a Redis SET / DEL / GET failure, and a Kafka publish
failure after retry exhaustion (the best-effort ones). -/
structure Env where
  dbFail : Bool
  cacheSetFail : Bool
  cacheGetFail : Bool
  cacheDelFail : Bool
  publishFail : Bool
deriving Repr, DecidableEq

/-- `RedisCache` key derivation: `fmt.Sprintf("message:%s", id.String())`. -/
def msgKey (id : Nat) : String := "message:" ++ uuidString id

/-- The Redis store, an association of keys to cached message snapshots. -/
def CacheState : Type := List (String × Message)

instance : DecidableEq CacheState := by
  unfold CacheState
  infer_instance

/-- Redis `GET key` as seen by the service: `none` both on a miss
(`redis.Nil`) and on a failure, `some` only on a hit, since the service
falls through to the repository in both non-hit cases. -/
def cacheLookup (c : CacheState) (key : String) : Option Message :=
  (c.find? fun e => e.1 = key).map (·.2)

/-- Redis `SET key value` (upsert: the previous value for the key is
replaced). -/
def cacheInsert (c : CacheState) (key : String) (m : Message) : CacheState :=
  (key, m) :: c.filter fun e => ¬ e.1 = key

/-- Redis `DEL key`. -/
def cacheErase (c : CacheState) (key : String) : CacheState :=
  c.filter fun e => ¬ e.1 = key

/-- A message handed to the broker by `Producer.PublishMessage`: topic,
partition key (`sarama.StringEncoder(message.ID.String())`) and the
serialized record as value. -/
structure ProducerMessage where
  topic : String
  key : String
  value : Message
deriving Repr, DecidableEq

/-- `Producer.PublishMessage`'s construction of the broker message for a
record, before the send: `Topic: p.topic, Key:
StringEncoder(message.ID.String()), Value: json.Marshal(message)`. -/
def producerMessageFor (topic : String) (m : Message) : ProducerMessage :=
  { topic := topic, key := uuidString m.id, value := m }

/-- The world the `MessageService` acts on: the database, the cache and
the log of messages the broker has accepted. -/
structure SysState where
  db : DBState
  cache : CacheState
  published : List ProducerMessage
  topic : String
deriving DecidableEq

/-- Service-level errors: a database failure surfaced verbatim, and
sqlc's no-rows outcome (`pgx.ErrNoRows`, the NotFound of the contract),
and the `"pagination values too large"` guard error. -/
inductive SvcErr where
  | dbError
  | notFound
  | paginationTooLarge
deriving Repr, DecidableEq

instance {ε α : Type} [DecidableEq ε] [DecidableEq α] :
    DecidableEq (Except ε α) := fun a b =>
  match a, b with
  | .ok x, .ok y =>
    if h : x = y then .isTrue (by rw [h])
    else .isFalse fun e => h (Except.ok.inj e)
  | .error x, .error y =>
    if h : x = y then .isTrue (by rw [h])
    else .isFalse fun e => h (Except.error.inj e)
  | .ok _, .error _ => .isFalse Except.noConfusion
  | .error _, .ok _ => .isFalse Except.noConfusion

/-- `MessageService.CreateMessage`: repository insert (fatal on error),
then `*message` is overwritten with the database row, then best-effort
cache SET and best-effort publish, whose errors are swallowed. -/
def CreateMessage (env : Env) (now : Nat) (s : SysState) (message : Message) :
    Except SvcErr Message × SysState :=
  if env.dbFail then (.error .dbError, s)
  else
    let (row, db') := dbCreateMessage s.db now message.content
    let message' : Message :=
      { id := row.id, content := row.content, createdAt := row.createdAt,
        updatedAt := row.updatedAt, deletedAt := none }
    let cache' :=
      if env.cacheSetFail then s.cache
      else cacheInsert s.cache (msgKey message'.id) message'
    let published' :=
      if env.publishFail then s.published
      else s.published ++ [producerMessageFor s.topic message']
    (.ok message',
      { s with db := db', cache := cache', published := published' })

/-- `MessageService.GetMessage`: cache GET first — on a hit return the
cached snapshot at once; on a miss or cache failure fall back to the
repository (fatal on no-rows), then best-effort re-populate the cache. -/
def GetMessage (env : Env) (s : SysState) (id : Nat) :
    Except SvcErr Message × SysState :=
  let hit := if env.cacheGetFail then none else cacheLookup s.cache (msgKey id)
  match hit with
  | some m => (.ok m, s)
  | none =>
    if env.dbFail then (.error .dbError, s)
    else
      match dbGetMessage s.db id with
      | none => (.error .notFound, s)
      | some row =>
        let message : Message :=
          { id := row.id, content := row.content,
            createdAt := row.createdAt, updatedAt := row.updatedAt,
            deletedAt := none }
        let cache' :=
          if env.cacheSetFail then s.cache
          else cacheInsert s.cache (msgKey id) message
        (.ok message, { s with cache := cache' })

/-- `MessageService.UpdateMessage`: repository update (fatal on error or
no-rows), then only `message.UpdatedAt` is refreshed from the returned
row, then best-effort cache SET and best-effort publish. -/
def UpdateMessage (env : Env) (now : Nat) (s : SysState) (message : Message) :
    Except SvcErr Message × SysState :=
  if env.dbFail then (.error .dbError, s)
  else
    match dbUpdateMessage s.db now message.id message.content with
    | (none, _) => (.error .notFound, s)
    | (some row, db') =>
      let message' : Message := { message with updatedAt := row.updatedAt }
      let cache' :=
        if env.cacheSetFail then s.cache
        else cacheInsert s.cache (msgKey message'.id) message'
      let published' :=
        if env.publishFail then s.published
        else s.published ++ [producerMessageFor s.topic message']
      (.ok message',
        { s with db := db', cache := cache', published := published' })

/-- The identifier-only deletion event `&models.Message{ID: id}`. -/
def deleteEventFor (id : Nat) : Message :=
  { id := id, content := "", createdAt := 0, updatedAt := 0,
    deletedAt := none }

/-- `MessageService.DeleteMessage`: repository soft delete (fatal only on
a database error — the `:exec` query reports no NotFound), then
best-effort cache DEL and best-effort publish of an identifier-only
event. -/
def DeleteMessage (env : Env) (now : Nat) (s : SysState) (id : Nat) :
    Except SvcErr Unit × SysState :=
  if env.dbFail then (.error .dbError, s)
  else
    let db' := dbDeleteMessage s.db now id
    let cache' :=
      if env.cacheDelFail then s.cache else cacheErase s.cache (msgKey id)
    let published' :=
      if env.publishFail then s.published
      else s.published ++ [producerMessageFor s.topic (deleteEventFor id)]
    (.ok (),
      { s with db := db', cache := cache', published := published' })

/-- `uint32` modulus, `2^32`. -/
def UINT32_MOD : Nat := 4294967296

/-- `int32` maximum, `uint32(1<<31 - 1)` in the Go source: `2^31 - 1`. -/
def INT32_MAX : Nat := 2147483647

/-- Go `uint32` subtraction (wraps modulo `2^32`; arguments below
`2^32`). -/
def sub32 (a b : Nat) : Nat := (a + UINT32_MOD - b % UINT32_MOD) % UINT32_MOD

/-- Go `uint32` multiplication (wraps modulo `2^32`). -/
def mul32 (a b : Nat) : Nat := (a * b) % UINT32_MOD

/-- `offset := (page - 1) * pageSize` computed in `uint32` arithmetic, as
in `ListMessagesPaginated`. -/
def paginationOffset (page pageSize : Nat) : Nat :=
  mul32 (sub32 page 1) pageSize

/-- The `(Limit, Offset)` pair `ListMessagesPaginated` hands to the
repository's list query, or `none` when the overflow guard errors out
before the query (`pageSize > uint32(1<<31-1) || offset >
uint32(1<<31-1)`). -/
def listQueryParams (page pageSize : Nat) : Option (Nat × Nat) :=
  let off := paginationOffset page pageSize
  if pageSize > INT32_MAX ∨ off > INT32_MAX then none
  else some (pageSize, off)

/-- `MessageService.ListMessagesPaginated`: total count, then the
`uint32` offset computation with its guard, then the repository list. -/
def ListMessagesPaginated (env : Env) (s : SysState) (page pageSize : Nat) :
    Except SvcErr (List Message × Nat) × SysState :=
  if env.dbFail then (.error .dbError, s)
  else
    let total := dbGetTotalMessages s.db
    match listQueryParams page pageSize with
    | none => (.error .paginationTooLarge, s)
    | some (lim, off) => (.ok (dbListMessages s.db lim off, total), s)

/-- The partition worker's loop body from `Consumer.Start`: for each
delivered value attempt to deserialize; on failure log the error and
`continue`; on success process the message.  Returns the processed
messages in order together with the number of deserialization errors
logged. -/
def runWorker {α : Type} (decode : α → Option Message) :
    List α → List Message × Nat
  | [] => ([], 0)
  | v :: rest =>
    match decode v with
    | none => ((runWorker decode rest).1, (runWorker decode rest).2 + 1)
    | some m => (m :: (runWorker decode rest).1, (runWorker decode rest).2)

/-! ### Fixtures used by the concrete witnesses -/

/-- All collaborators healthy. -/
def envOk : Env :=
  { dbFail := false, cacheSetFail := false, cacheGetFail := false,
    cacheDelFail := false, publishFail := false }

/-- Empty system: no rows, empty cache, nothing published. -/
def emptyState : SysState :=
  { db := { rows := [], nextId := 1 }, cache := [], published := [],
    topic := "messages" }

/-- A caller-side message value carrying only content, as the HTTP
handler builds it. -/
def msgHello : Message :=
  { id := 0, content := "hello", createdAt := 0, updatedAt := 0,
    deletedAt := none }

/-- A live row as the database stores it after a create at time 1. -/
def rowOne : Message :=
  { id := 1, content := "hello", createdAt := 1, updatedAt := 1,
    deletedAt := none }

/-- System holding `rowOne`, with its cache entry populated. -/
def stateOne : SysState :=
  { db := { rows := [rowOne], nextId := 2 },
    cache := [(msgKey 1, rowOne)], published := [], topic := "messages" }

/-- The row the repository assigns for a create of `content` at time
`now`: fresh id, the given content, both timestamps `now`, no delete
marker.  Shorthand for the first component of `dbCreateMessage`. -/
def createdRow (db : DBState) (now : Nat) (content : String) : Message :=
  (dbCreateMessage db now content).1

/-! ### Helper lemmas -/

theorem runWorker_fst {α : Type} (decode : α → Option Message) (l : List α) :
    (runWorker decode l).1 = l.filterMap decode := by
  induction l with
  | nil => rfl
  | cons v rest ih =>
    cases h : decode v <;> simp [runWorker, h, ih, List.filterMap_cons]

theorem runWorker_snd {α : Type} (decode : α → Option Message) (l : List α) :
    (runWorker decode l).2 = l.countP fun v => (decode v).isNone := by
  induction l with
  | nil => rfl
  | cons v rest ih =>
    cases h : decode v <;>
      simp [runWorker, h, ih, List.countP_cons]

theorem mem_insertByCreatedDesc (x r : Message) (l : List Message) :
    x ∈ insertByCreatedDesc r l ↔ x = r ∨ x ∈ l := by
  induction l with
  | nil => simp [insertByCreatedDesc]
  | cons y ys ih =>
    by_cases h : r.createdAt ≤ y.createdAt
    · simp only [insertByCreatedDesc, if_pos h, List.mem_cons, ih]
      try tauto
    · simp only [insertByCreatedDesc, if_neg h, List.mem_cons]
      try tauto

theorem mem_sortByCreatedDesc (x : Message) (l : List Message) :
    x ∈ sortByCreatedDesc l ↔ x ∈ l := by
  induction l with
  | nil => simp [sortByCreatedDesc]
  | cons y ys ih =>
    show x ∈ insertByCreatedDesc y (sortByCreatedDesc ys) ↔ _
    rw [mem_insertByCreatedDesc]
    simp [ih]

theorem mem_dbListMessages {x : Message} {db : DBState} {lim off : Nat}
    (h : x ∈ dbListMessages db lim off) :
    x ∈ db.rows ∧ x.deletedAt = none := by
  unfold dbListMessages at h
  have h1 := List.drop_subset off _ (List.take_subset lim _ h)
  rw [mem_sortByCreatedDesc] at h1
  have := List.mem_filter.1 h1
  simpa using this

/-- Mapping a function that fixes every element of a list leaves the
list unchanged. -/
theorem map_id_of_fixes {l : List Message} {f : Message → Message}
    (h : ∀ r ∈ l, f r = r) : l.map f = l := by
  induction l with
  | nil => rfl
  | cons x xs ih =>
    simp only [List.map_cons, h x (by simp)]
    rw [ih fun r hr => h r (by simp [hr])]

theorem find?_append_of_left_none {α : Type} (p : α → Bool) {l₁ : List α}
    (l₂ : List α) (h : l₁.find? p = none) :
    (l₁ ++ l₂).find? p = l₂.find? p := by
  rw [List.find?_append, h, Option.none_or]

/-- Looking up a key just inserted in the cache yields the inserted
snapshot. -/
theorem cacheLookup_insert_self (c : CacheState) (k : String) (m : Message) :
    cacheLookup (cacheInsert c k m) k = some m := by
  simp [cacheLookup, cacheInsert, List.find?]

/-- After deleting a key from the cache, looking it up misses. -/
theorem cacheLookup_erase_self (c : CacheState) (k : String) :
    cacheLookup (cacheErase c k) k = none := by
  have h : (cacheErase c k).find? (fun e => e.1 = k) = none := by
    rw [List.find?_eq_none]
    intro x hx
    have hx2 := (List.mem_filter.1 hx).2
    simp only [decide_eq_true_eq] at hx2 ⊢
    exact hx2
  unfold cacheLookup
  rw [h]
  rfl

/-- A freshly appended live row is what `GetMessage`'s query finds when
no earlier row carries its identifier. -/
theorem dbGetMessage_append_row (rows : List Message) (nid : Nat)
    (row : Message) (hfresh : ∀ r ∈ rows, ¬ r.id = row.id)
    (hlive : row.deletedAt = none) :
    dbGetMessage { rows := rows ++ [row], nextId := nid } row.id
      = some row := by
  unfold dbGetMessage
  rw [find?_append_of_left_none]
  · simp [List.find?, hlive]
  · rw [List.find?_eq_none]
    intro x hx
    simp only [decide_eq_true_eq, not_and]
    intro hid
    exact absurd hid (hfresh x hx)

/-- Mapping a function over `rows ++ [row]` that fixes every earlier
row only rewrites the appended row. -/
theorem map_append_fixes (rows : List Message) (row : Message)
    (f : Message → Message) (h : ∀ r ∈ rows, f r = r) :
    (rows ++ [row]).map f = rows ++ [f row] := by
  rw [List.map_append, map_id_of_fixes h, List.map_cons, List.map_nil]

/-- The repository update on `rows ++ [row]`, when no earlier row
carries the identifier and the appended row is live: it returns the
refreshed row and rewrites only that row. -/
theorem dbUpdateMessage_append_row (rows : List Message) (nid now : Nat)
    (row : Message) (c : String)
    (hfresh : ∀ r ∈ rows, ¬ r.id = row.id)
    (hlive : row.deletedAt = none) :
    dbUpdateMessage { rows := rows ++ [row], nextId := nid } now row.id c
      = (some { row with content := c, updatedAt := now },
          { rows := rows ++ [{ row with content := c, updatedAt := now }],
            nextId := nid }) := by
  have hfind : (rows ++ [row]).find?
      (fun r => r.id = row.id ∧ r.deletedAt = none) = some row := by
    rw [find?_append_of_left_none]
    · simp [List.find?, hlive]
    · rw [List.find?_eq_none]
      intro x hx
      simp only [decide_eq_true_eq, not_and]
      intro hid
      exact absurd hid (hfresh x hx)
  have hmap : (rows ++ [row]).map
      (fun r => if r.id = row.id ∧ r.deletedAt = none then
          { r with content := c, updatedAt := now }
        else r)
      = rows ++ [{ row with content := c, updatedAt := now }] := by
    rw [map_append_fixes rows row _
      fun r hr => if_neg (by
        simp only [not_and]
        intro hid
        exact absurd hid (hfresh r hr))]
    rw [if_pos ⟨rfl, hlive⟩]
  unfold dbUpdateMessage
  dsimp only
  rw [hfind, hmap]
  rfl

/-! ### Claim theorems -/

/-- C1: for every record-service mutation (`CreateMessage`,
`UpdateMessage`, `DeleteMessage`), when the repository step succeeds, a
failure of the subsequent cache SET / DEL does not change the returned
result: the operation reports success with the same record value as when
the cache succeeds. -/
theorem cacheFailureInvisibleToMutations
    (cs cg cd p : Bool) (now : Nat) (s : SysState) (m : Message) (id : Nat) :
    ((CreateMessage ⟨false, cs, cg, cd, p⟩ now s m).1
        = (CreateMessage ⟨false, false, false, false, p⟩ now s m).1
      ∧ (∃ r, (CreateMessage ⟨false, cs, cg, cd, p⟩ now s m).1 = .ok r))
    ∧ ((UpdateMessage ⟨false, cs, cg, cd, p⟩ now s m).1
        = (UpdateMessage ⟨false, false, false, false, p⟩ now s m).1
      ∧ ((dbUpdateMessage s.db now m.id m.content).1.isSome →
          ∃ r, (UpdateMessage ⟨false, cs, cg, cd, p⟩ now s m).1 = .ok r))
    ∧ ((DeleteMessage ⟨false, cs, cg, cd, p⟩ now s id).1
        = (DeleteMessage ⟨false, false, false, false, p⟩ now s id).1
      ∧ (DeleteMessage ⟨false, cs, cg, cd, p⟩ now s id).1 = .ok ()) := by
  refine ⟨⟨?_, ?_⟩, ⟨?_, ?_⟩, ?_, ?_⟩
  · simp [CreateMessage]
  · simp [CreateMessage]
  · rcases h : dbUpdateMessage s.db now m.id m.content with ⟨o, db'⟩
    cases o <;> simp [UpdateMessage, h]
  · intro hs
    rcases h : dbUpdateMessage s.db now m.id m.content with ⟨o, db'⟩
    rw [h] at hs
    cases o with
    | none => simp at hs
    | some row => simp [UpdateMessage, h]
  · simp [DeleteMessage]
  · simp [DeleteMessage]

/-- Witness for C1 at the concrete one-row state, with every cache
operation failing. -/
theorem cacheFailureInvisibleToMutations_witness :
    (dbUpdateMessage stateOne.db 5 rowOne.id rowOne.content).1.isSome
      ∧ ∃ r, (UpdateMessage ⟨false, true, true, true, false⟩ 5 stateOne
          rowOne).1 = .ok r := by
  have h := cacheFailureInvisibleToMutations true true true false 5 stateOne
    rowOne 1
  exact ⟨by decide, h.2.1.2 (by decide)⟩

/-- C2: for every record-service mutation, when the repository step
succeeds, a failure of the event publisher's send does not change the
returned result — the operation still reports success — and the durable
write is not rolled back (the database state is the same as when the
publish succeeds; for create the inserted row is present). -/
theorem publishFailureInvisibleToMutations
    (cs cg cd : Bool) (now : Nat) (s : SysState) (m : Message) (id : Nat) :
    ((CreateMessage ⟨false, cs, cg, cd, true⟩ now s m).1
        = (CreateMessage ⟨false, cs, cg, cd, false⟩ now s m).1
      ∧ (∃ r, (CreateMessage ⟨false, cs, cg, cd, true⟩ now s m).1 = .ok r)
      ∧ (CreateMessage ⟨false, cs, cg, cd, true⟩ now s m).2.db
        = (CreateMessage ⟨false, cs, cg, cd, false⟩ now s m).2.db
      ∧ (dbCreateMessage s.db now m.content).1
          ∈ (CreateMessage ⟨false, cs, cg, cd, true⟩ now s m).2.db.rows)
    ∧ ((UpdateMessage ⟨false, cs, cg, cd, true⟩ now s m).1
        = (UpdateMessage ⟨false, cs, cg, cd, false⟩ now s m).1
      ∧ ((dbUpdateMessage s.db now m.id m.content).1.isSome →
          ∃ r, (UpdateMessage ⟨false, cs, cg, cd, true⟩ now s m).1 = .ok r)
      ∧ (UpdateMessage ⟨false, cs, cg, cd, true⟩ now s m).2.db
        = (UpdateMessage ⟨false, cs, cg, cd, false⟩ now s m).2.db)
    ∧ ((DeleteMessage ⟨false, cs, cg, cd, true⟩ now s id).1
        = (DeleteMessage ⟨false, cs, cg, cd, false⟩ now s id).1
      ∧ (DeleteMessage ⟨false, cs, cg, cd, true⟩ now s id).1 = .ok ()
      ∧ (DeleteMessage ⟨false, cs, cg, cd, true⟩ now s id).2.db
        = (DeleteMessage ⟨false, cs, cg, cd, false⟩ now s id).2.db) := by
  refine ⟨⟨?_, ?_, ?_, ?_⟩, ⟨?_, ?_, ?_⟩, ?_, ?_, ?_⟩
  · simp [CreateMessage]
  · simp [CreateMessage]
  · simp [CreateMessage]
  · simp [CreateMessage, dbCreateMessage]
  · rcases h : dbUpdateMessage s.db now m.id m.content with ⟨o, db'⟩
    cases o <;> simp [UpdateMessage, h]
  · intro hs
    rcases h : dbUpdateMessage s.db now m.id m.content with ⟨o, db'⟩
    rw [h] at hs
    cases o with
    | none => simp at hs
    | some row => simp [UpdateMessage, h]
  · rcases h : dbUpdateMessage s.db now m.id m.content with ⟨o, db'⟩
    cases o <;> simp [UpdateMessage, h]
  · simp [DeleteMessage]
  · simp [DeleteMessage]
  · simp [DeleteMessage]

/-- Witness for C2 at the concrete one-row state, with the publisher
failing. -/
theorem publishFailureInvisibleToMutations_witness :
    (dbUpdateMessage stateOne.db 5 rowOne.id rowOne.content).1.isSome
      ∧ ∃ r, (UpdateMessage ⟨false, false, false, false, true⟩ 5 stateOne
          rowOne).1 = .ok r := by
  have h := publishFailureInvisibleToMutations false false false 5 stateOne
    rowOne 1
  exact ⟨by decide, h.2.1.2.1 (by decide)⟩

/-- C10: `CreateMessage` derives the stored record solely from the
content argument — the result is the repository-assigned id, the given
content, both timestamps set to the insert time and a clear delete
marker, whatever identifier, timestamps or marker the caller supplied;
two inputs with the same content produce identical outcomes. -/
theorem createDerivesRecordFromContentOnly (env : Env) (now : Nat)
    (s : SysState) (m : Message) (h : env.dbFail = false) :
    (CreateMessage env now s m).1
        = .ok { id := s.db.nextId, content := m.content, createdAt := now,
                updatedAt := now, deletedAt := none }
      ∧ ∀ m₂ : Message, m₂.content = m.content →
          CreateMessage env now s m₂ = CreateMessage env now s m := by
  constructor
  · simp [CreateMessage, h, dbCreateMessage]
  · intro m₂ hc
    simp [CreateMessage, h, dbCreateMessage, hc]

/-- Witness for C10: creating from a caller record that carries a bogus
id and timestamps yields the repository-assigned values. -/
theorem createDerivesRecordFromContentOnly_witness :
    (CreateMessage envOk 7 stateOne msgHello).1
      = .ok { id := 2, content := "hello", createdAt := 7, updatedAt := 7,
              deletedAt := none } := by
  have h := createDerivesRecordFromContentOnly envOk 7 stateOne msgHello
    (by decide)
  exact h.1

/-- C8: the broker message built by `Producer.PublishMessage` carries
partition key equal to the string form of the record's identifier, so
under any partitioner two events for the same record identifier map to
the same partition. -/
theorem publishPartitionKeyIsRecordId (topic : String) (m : Message) :
    (producerMessageFor topic m).key = uuidString m.id
      ∧ ∀ (partitioner : String → Nat) (m₂ : Message), m₂.id = m.id →
          partitioner (producerMessageFor topic m₂).key
            = partitioner (producerMessageFor topic m).key := by
  refine ⟨rfl, fun partitioner m₂ h => ?_⟩
  simp [producerMessageFor, h]

/-- Witness for C8: two distinct events for record 1 (an update snapshot
and the create snapshot) get the same key under a sample partitioner. -/
theorem publishPartitionKeyIsRecordId_witness :
    (producerMessageFor "messages" rowOne).key = uuidString rowOne.id
      ∧ String.length (producerMessageFor "messages"
          { id := 1, content := "x", createdAt := 9, updatedAt := 9,
            deletedAt := none }).key
        = String.length (producerMessageFor "messages" rowOne).key := by
  have h := publishPartitionKeyIsRecordId "messages" rowOne
  exact ⟨h.1, h.2 String.length
    { id := 1, content := "x", createdAt := 9, updatedAt := 9,
      deletedAt := none } (by decide)⟩

/-- C9: a partition worker that receives a malformed event logs it and
skips it without stopping: the processed output is the processed prefix
followed by the processed suffix, exactly one extra deserialization
error is logged, and every later well-formed event is still processed. -/
theorem consumerSkipsMalformedAndContinues {α : Type}
    (decode : α → Option Message) (pre post : List α) (bad : α)
    (hbad : decode bad = none) :
    (runWorker decode (pre ++ bad :: post)).1
        = (runWorker decode pre).1 ++ (runWorker decode post).1
      ∧ (runWorker decode (pre ++ bad :: post)).2
        = (runWorker decode pre).2 + (runWorker decode post).2 + 1
      ∧ ∀ v ∈ post, ∀ m, decode v = some m →
          m ∈ (runWorker decode (pre ++ bad :: post)).1 := by
  refine ⟨?_, ?_, ?_⟩
  · rw [runWorker_fst, runWorker_fst, runWorker_fst,
      List.filterMap_append pre (bad :: post) decode,
      List.filterMap_cons, hbad]
  · rw [runWorker_snd, runWorker_snd, runWorker_snd, List.countP_append,
      List.countP_cons]
    simp [hbad]
    omega
  · intro v hv m hm
    rw [runWorker_fst, List.filterMap_append pre (bad :: post) decode]
    refine List.mem_append_right _ ?_
    rw [List.filterMap_cons, hbad]
    exact List.mem_filterMap.2 ⟨v, hv, hm⟩

/-- Witness for C9: a malformed event between two well-formed ones is
skipped, both neighbours are processed. -/
theorem consumerSkipsMalformedAndContinues_witness :
    (fun o : Option Message => o) none = none
      ∧ (runWorker (fun o : Option Message => o)
            [some rowOne, none, some msgHello]).1
        = (runWorker (fun o : Option Message => o) [some rowOne]).1
            ++ (runWorker (fun o : Option Message => o) [some msgHello]).1 := by
  have h := consumerSkipsMalformedAndContinues
    (fun o : Option Message => o) [some rowOne] [some msgHello] none rfl
  exact ⟨rfl, h.1⟩

/-- C5 counterexample: no record with identifier 5 exists (the store is
empty), yet `DeleteMessage` reports success, not NotFound. -/
theorem deleteMissingNotFound_counterexample :
    (DeleteMessage envOk 1 emptyState 5).1 = .ok ()
      ∧ (DeleteMessage envOk 1 emptyState 5).1
          ≠ .error SvcErr.notFound := by
  decide

/-- C5 amended: for every identifier with no live record, the service's
delete reports success (the `:exec` soft-delete update matches no row
and surfaces no NotFound) and leaves the database unchanged. -/
theorem deleteMissingIsSilentSuccess (env : Env) (now : Nat) (s : SysState)
    (id : Nat) (hdb : env.dbFail = false)
    (hno : ∀ r ∈ s.db.rows, ¬(r.id = id ∧ r.deletedAt = none)) :
    (DeleteMessage env now s id).1 = .ok ()
      ∧ (DeleteMessage env now s id).2.db = s.db := by
  constructor
  · simp [DeleteMessage, hdb]
  · simp only [DeleteMessage, hdb, Bool.false_eq_true, if_false,
      dbDeleteMessage]
    rw [map_id_of_fixes fun r hr => if_neg (hno r hr)]

/-- Witness for the amended C5 at the empty store. -/
theorem deleteMissingIsSilentSuccess_witness :
    (DeleteMessage envOk 1 emptyState 5).1 = .ok ()
      ∧ (DeleteMessage envOk 1 emptyState 5).2.db = emptyState.db :=
  deleteMissingIsSilentSuccess envOk 1 emptyState 5 (by decide) (by decide)

/-- C7 counterexample: with page `2^31 + 1` and pageSize 2 — both in
range for `uint32` and ≥ 1 — the `uint32` product `(page-1)*pageSize`
wraps to 0, the overflow guard does not fire, and the repository is
queried at offset 0 instead of `(page−1)×pageSize = 2^32`: the service
returns the stored row although the claim's exact offset lies past the
end of the table. -/
theorem paginationOffsetWraps_counterexample :
    listQueryParams 2147483649 2 = some (2, 0)
      ∧ listQueryParams 2147483649 2 ≠ some (2, (2147483649 - 1) * 2)
      ∧ (2147483649 - 1) * 2 = 4294967296
      ∧ (ListMessagesPaginated envOk stateOne 2147483649 2).1
          = .ok ([rowOne], 1)
      ∧ dbListMessages stateOne.db 2 ((2147483649 - 1) * 2) = [] := by
  refine ⟨by decide, by decide, by decide, ?_, ?_⟩
  · have hq : listQueryParams 2147483649 2 = some (2, 0) := by decide
    simp only [ListMessagesPaginated, envOk, Bool.false_eq_true, if_false,
      hq]
    decide
  · have e1 : sortByCreatedDesc
        (stateOne.db.rows.filter fun r => r.deletedAt = none)
          = [rowOne] := by decide
    unfold dbListMessages
    rw [e1, List.drop_eq_nil_of_le (by norm_num), List.take_nil]

/-- C7 amended: for pages and page sizes at least 1 and within `uint32`
range whose product `(page−1)×pageSize` does not exceed the `int32`
maximum (and pageSize within the `int32` maximum), the service queries
the repository with limit exactly pageSize and offset exactly
`(page−1)×pageSize`; outside that range the offset is computed modulo
`2^32`. -/
theorem paginationOffsetExactWithinInt32 (page pageSize : Nat)
    (h1 : 1 ≤ page) (h2 : page < UINT32_MOD) (h3 : pageSize ≤ INT32_MAX)
    (h4 : (page - 1) * pageSize ≤ INT32_MAX) :
    listQueryParams page pageSize = some (pageSize, (page - 1) * pageSize)
      ∧ ∀ (env : Env) (s : SysState), env.dbFail = false →
          (ListMessagesPaginated env s page pageSize).1
            = .ok (dbListMessages s.db pageSize ((page - 1) * pageSize),
                dbGetTotalMessages s.db) := by
  have hsub : sub32 page 1 = page - 1 := by
    unfold sub32 UINT32_MOD
    unfold UINT32_MOD at h2
    omega
  have hmul : mul32 (page - 1) pageSize = (page - 1) * pageSize := by
    unfold mul32 UINT32_MOD
    unfold INT32_MAX at h4
    omega
  have hoff : paginationOffset page pageSize = (page - 1) * pageSize := by
    unfold paginationOffset
    rw [hsub, hmul]
  have hparams : listQueryParams page pageSize
      = some (pageSize, (page - 1) * pageSize) := by
    unfold listQueryParams
    rw [hoff]
    unfold INT32_MAX at h3 h4 ⊢
    rw [if_neg (by omega)]
  refine ⟨hparams, fun env s hdb => ?_⟩
  simp only [ListMessagesPaginated, hdb, Bool.false_eq_true, if_false,
    hparams]

/-- Witness for the amended C7: page 3, pageSize 10 queries offset 20. -/
theorem paginationOffsetExactWithinInt32_witness :
    listQueryParams 3 10 = some (10, (3 - 1) * 10)
      ∧ (ListMessagesPaginated envOk stateOne 3 10).1
          = .ok (dbListMessages stateOne.db 10 ((3 - 1) * 10),
              dbGetTotalMessages stateOne.db) := by
  have h := paginationOffsetExactWithinInt32 3 10 (by decide) (by decide)
    (by decide) (by decide)
  exact ⟨h.1, h.2 envOk stateOne (by decide)⟩

/-- C3: in a single-client execution, creating a record with valid
content and immediately reading the returned identifier yields a record
with the created content — whether the read is served by the cache fast
path or the repository fallback, and under any cache set/get failures
(`env₁`, `env₂` carry arbitrary cache and publisher flags). -/
theorem createThenGetReturnsCreatedContent
    (env₁ env₂ : Env) (now : Nat) (s : SysState) (m : Message)
    (h1 : env₁.dbFail = false) (h2 : env₂.dbFail = false)
    (hvalid : m.content ≠ "")
    (hfresh : ∀ r ∈ s.db.rows, r.id < s.db.nextId)
    (hcache : cacheLookup s.cache (msgKey s.db.nextId) = none) :
    ∃ rec : Message,
      (CreateMessage env₁ now s m).1 = .ok rec
        ∧ rec.content = m.content
        ∧ (GetMessage env₂ (CreateMessage env₁ now s m).2 rec.id).1
            = .ok rec := by
  obtain ⟨d1, cs1, cg1, cd1, p1⟩ := env₁
  obtain ⟨d2, cs2, cg2, cd2, p2⟩ := env₂
  simp only at h1 h2
  subst h1
  subst h2
  refine ⟨createdRow s.db now m.content, ?_, rfl, ?_⟩
  · simp [CreateMessage, dbCreateMessage, createdRow]
  · have hstate : (CreateMessage ⟨false, cs1, cg1, cd1, p1⟩ now s m).2
        = { db := { rows := s.db.rows ++ [createdRow s.db now m.content],
                    nextId := s.db.nextId + 1 },
            cache := if cs1 then s.cache
              else cacheInsert s.cache (msgKey s.db.nextId)
                (createdRow s.db now m.content),
            published := if p1 then s.published
              else s.published
                ++ [producerMessageFor s.topic
                      (createdRow s.db now m.content)],
            topic := s.topic } := rfl
    have hget : dbGetMessage
        { rows := s.db.rows ++ [createdRow s.db now m.content],
          nextId := s.db.nextId + 1 } s.db.nextId
        = some (createdRow s.db now m.content) :=
      dbGetMessage_append_row _ _ _
        (fun r hr => Nat.ne_of_lt (hfresh r hr)) rfl
    simp only [createdRow, dbCreateMessage] at hget
    rw [hstate]
    cases cg2 with
    | true => simp [GetMessage, dbCreateMessage, createdRow, hget]
    | false =>
      cases cs1 with
      | false =>
        simp [GetMessage, dbCreateMessage, createdRow,
          cacheLookup_insert_self]
      | true =>
        simp [GetMessage, dbCreateMessage, createdRow, hcache, hget]

/-- Witness for C3: create "hello" on the one-row system with all cache
operations failing, then read it back. -/
theorem createThenGetReturnsCreatedContent_witness :
    ∃ rec : Message,
      (CreateMessage ⟨false, true, true, true, false⟩ 7 stateOne
          msgHello).1 = .ok rec
        ∧ rec.content = msgHello.content
        ∧ (GetMessage ⟨false, true, true, true, false⟩
            (CreateMessage ⟨false, true, true, true, false⟩ 7 stateOne
              msgHello).2 rec.id).1 = .ok rec :=
  createThenGetReturnsCreatedContent
    ⟨false, true, true, true, false⟩ ⟨false, true, true, true, false⟩
    7 stateOne msgHello rfl rfl (by decide) (by decide) (by decide)

/-- C6 counterexample: the create's cache set succeeds and caches the
"hello" snapshot; the update to "world" succeeds in the repository but
its best-effort cache set fails (swallowed); the next `GetMessage`
serves the stale "hello" snapshot from the cache fast path instead of
the updated content. -/
theorem updateThenGetStale_counterexample :
    (CreateMessage envOk 7 emptyState msgHello).1
        = .ok { id := 1, content := "hello", createdAt := 7,
                updatedAt := 7, deletedAt := none }
      ∧ (UpdateMessage ⟨false, true, false, false, false⟩ 9
            (CreateMessage envOk 7 emptyState msgHello).2
            { id := 1, content := "world", createdAt := 7, updatedAt := 7,
              deletedAt := none }).1
          = .ok { id := 1, content := "world", createdAt := 7,
                  updatedAt := 9, deletedAt := none }
      ∧ (GetMessage envOk
            (UpdateMessage ⟨false, true, false, false, false⟩ 9
              (CreateMessage envOk 7 emptyState msgHello).2
              { id := 1, content := "world", createdAt := 7,
                updatedAt := 7, deletedAt := none }).2 1).1
          = .ok { id := 1, content := "hello", createdAt := 7,
                  updatedAt := 7, deletedAt := none }
      ∧ "hello" ≠ "world" := by
  decide

/-- C6 amended: after creating a record with content `m.content` at
time `t₁` and successfully updating it to `c₂` at a strictly later
time `t₂`, a later `GetMessage` returns content `c₂` with updated-at
(`t₂`) strictly greater than created-at (`t₁`), provided the read does
not hit a stale pre-update cache entry: the update's cache set
succeeded, or the read bypasses the cache, or neither the create nor
the update populated the cache.  Each operation carries its own
failure environment. -/
theorem updateFreshReadReturnsNewContent
    (env₁ env₂ env₃ : Env) (t₁ t₂ : Nat) (s : SysState) (m : Message)
    (c₂ : String) (h1 : env₁.dbFail = false) (h2 : env₂.dbFail = false)
    (h3 : env₃.dbFail = false) (ht : t₁ < t₂)
    (hfresh : ∀ r ∈ s.db.rows, r.id < s.db.nextId)
    (hcache : cacheLookup s.cache (msgKey s.db.nextId) = none)
    (hnostale : env₂.cacheSetFail = false ∨ env₃.cacheGetFail = true
        ∨ (env₁.cacheSetFail = true ∧ env₂.cacheSetFail = true)) :
    ∃ rec₁ rec₂ : Message,
      (CreateMessage env₁ t₁ s m).1 = .ok rec₁
        ∧ rec₁.content = m.content
        ∧ (UpdateMessage env₂ t₂ (CreateMessage env₁ t₁ s m).2
            { rec₁ with content := c₂ }).1 = .ok rec₂
        ∧ rec₂.content = c₂
        ∧ (GetMessage env₃ (UpdateMessage env₂ t₂
            (CreateMessage env₁ t₁ s m).2
            { rec₁ with content := c₂ }).2 rec₁.id).1 = .ok rec₂
        ∧ rec₂.createdAt < rec₂.updatedAt := by
  obtain ⟨d1, cs1, cg1, cd1, p1⟩ := env₁
  obtain ⟨d2, cs2, cg2, cd2, p2⟩ := env₂
  obtain ⟨d3, cs3, cg3, cd3, p3⟩ := env₃
  simp only at h1 h2 h3 hnostale
  subst h1
  subst h2
  subst h3
  have hstate : (CreateMessage ⟨false, cs1, cg1, cd1, p1⟩ t₁ s m).2
      = { db := { rows := s.db.rows ++ [createdRow s.db t₁ m.content],
                  nextId := s.db.nextId + 1 },
          cache := if cs1 then s.cache
            else cacheInsert s.cache (msgKey s.db.nextId)
              (createdRow s.db t₁ m.content),
          published := if p1 then s.published
            else s.published
              ++ [producerMessageFor s.topic
                    (createdRow s.db t₁ m.content)],
          topic := s.topic } := rfl
  have hfresh' : ∀ r ∈ s.db.rows,
      ¬ r.id = (createdRow s.db t₁ m.content).id :=
    fun r hr => Nat.ne_of_lt (hfresh r hr)
  have hupd := dbUpdateMessage_append_row s.db.rows (s.db.nextId + 1)
    t₂ (createdRow s.db t₁ m.content) c₂ hfresh' rfl
  have hget₂ := dbGetMessage_append_row s.db.rows (s.db.nextId + 1)
    { id := s.db.nextId, content := c₂, createdAt := t₁,
      updatedAt := t₂, deletedAt := none }
    (fun r hr => Nat.ne_of_lt (hfresh r hr)) rfl
  simp only [createdRow, dbCreateMessage] at hstate hupd
  refine ⟨{ id := s.db.nextId, content := m.content, createdAt := t₁,
            updatedAt := t₁, deletedAt := none },
          { id := s.db.nextId, content := c₂, createdAt := t₁,
            updatedAt := t₂, deletedAt := none },
          ?_, rfl, ?_, rfl, ?_, ht⟩
  · simp [CreateMessage, dbCreateMessage]
  · rw [hstate]
    simp [UpdateMessage, hupd]
  · rw [hstate]
    cases cs2 with
    | false =>
      cases cg3 with
      | true => simp [UpdateMessage, GetMessage, hupd, hget₂]
      | false =>
        simp [UpdateMessage, GetMessage, hupd, cacheLookup_insert_self]
    | true =>
      rcases hnostale with h | h | ⟨hcs1, -⟩
      · exact absurd h (by simp)
      · subst h
        simp [UpdateMessage, GetMessage, hupd, hget₂]
      · subst hcs1
        cases cg3 with
        | true => simp [UpdateMessage, GetMessage, hupd, hget₂]
        | false => simp [UpdateMessage, GetMessage, hupd, hcache, hget₂]

/-- Witness for the amended C6: with healthy collaborators throughout,
create "hello" at time 7, update to "world" at time 9, read back
"world" with created-at 7 < updated-at 9. -/
theorem updateFreshReadReturnsNewContent_witness :
    ∃ rec₁ rec₂ : Message,
      (CreateMessage envOk 7 stateOne msgHello).1 = .ok rec₁
        ∧ rec₁.content = msgHello.content
        ∧ (UpdateMessage envOk 9 (CreateMessage envOk 7 stateOne
            msgHello).2 { rec₁ with content := "world" }).1 = .ok rec₂
        ∧ rec₂.content = "world"
        ∧ (GetMessage envOk (UpdateMessage envOk 9 (CreateMessage envOk 7
            stateOne msgHello).2 { rec₁ with content := "world" }).2
            rec₁.id).1 = .ok rec₂
        ∧ rec₂.createdAt < rec₂.updatedAt :=
  updateFreshReadReturnsNewContent envOk envOk envOk 7 9 stateOne
    msgHello "world" rfl rfl rfl (by decide) (by decide) (by decide)
    (Or.inl rfl)

/-- C4 counterexample: when the best-effort cache DEL fails (swallowed
by design), a successful `DeleteMessage` leaves the old snapshot in the
cache and the very next `GetMessage` on that identifier answers from the
cache fast path with the deleted record instead of NotFound. -/
theorem deleteThenGetNotFound_counterexample :
    (DeleteMessage ⟨false, false, false, true, false⟩ 2 stateOne 1).1
        = .ok ()
      ∧ (GetMessage envOk
          (DeleteMessage ⟨false, false, false, true, false⟩ 2 stateOne
            1).2 1).1 = .ok rowOne
      ∧ (Except.ok rowOne : Except SvcErr Message)
          ≠ .error SvcErr.notFound := by
  decide

/-- C4 amended: after `DeleteMessage` succeeds on an existing record
and the cache delete also succeeds, the row persists with its delete
marker set (soft delete, no row removal), `GetMessage` on the identifier
reports NotFound on either read path, and the repository list query
never includes the identifier for any limit and offset. -/
theorem deleteSoftDeletesAndHidesRecord
    (env env₂ : Env) (now : Nat) (s : SysState) (id : Nat) (r : Message)
    (h1 : env.dbFail = false) (hdel : env.cacheDelFail = false)
    (h2 : env₂.dbFail = false)
    (hr : r ∈ s.db.rows) (hrid : r.id = id) (hrlive : r.deletedAt = none) :
    (DeleteMessage env now s id).1 = .ok ()
      ∧ (DeleteMessage env now s id).2.db.rows.length = s.db.rows.length
      ∧ (∃ r' ∈ (DeleteMessage env now s id).2.db.rows,
          r'.id = id ∧ r'.content = r.content ∧ r'.deletedAt = some now)
      ∧ (GetMessage env₂ (DeleteMessage env now s id).2 id).1
          = .error SvcErr.notFound
      ∧ ∀ lim off,
          id ∉ (dbListMessages (DeleteMessage env now s id).2.db lim
            off).map (·.id) := by
  obtain ⟨d1, cs1, cg1, cd1, p1⟩ := env
  obtain ⟨d2, cs2, cg2, cd2, p2⟩ := env₂
  simp only at h1 hdel h2
  subst h1
  subst hdel
  subst h2
  have hstate : (DeleteMessage ⟨false, cs1, cg1, false, p1⟩ now s id).2
      = { db := dbDeleteMessage s.db now id,
          cache := cacheErase s.cache (msgKey id),
          published := if p1 then s.published
            else s.published
              ++ [producerMessageFor s.topic (deleteEventFor id)],
          topic := s.topic } := rfl
  have hdead : ∀ x ∈ (dbDeleteMessage s.db now id).rows,
      ¬(x.id = id ∧ x.deletedAt = none) := by
    intro x hx
    obtain ⟨y, hy, hyx⟩ := List.mem_map.1 hx
    by_cases hc : y.id = id ∧ y.deletedAt = none
    · rw [if_pos hc] at hyx
      rw [← hyx]
      rintro ⟨-, h'⟩
      exact Option.noConfusion h'
    · rw [if_neg hc] at hyx
      rw [← hyx]
      exact hc
  have hgetnone : dbGetMessage (dbDeleteMessage s.db now id) id = none := by
    unfold dbGetMessage
    rw [List.find?_eq_none]
    intro x hx
    simp only [decide_eq_true_eq]
    exact hdead x hx
  refine ⟨rfl, ?_, ?_, ?_, ?_⟩
  · rw [hstate]
    simp [dbDeleteMessage]
  · rw [hstate]
    refine ⟨{ r with deletedAt := some now }, ?_, hrid, rfl, rfl⟩
    unfold dbDeleteMessage
    exact List.mem_map.2 ⟨r, hr, by rw [if_pos ⟨hrid, hrlive⟩]⟩
  · rw [hstate]
    cases cg2 with
    | true => simp [GetMessage, hgetnone]
    | false => simp [GetMessage, cacheLookup_erase_self, hgetnone]
  · intro lim off hmem
    rw [hstate] at hmem
    obtain ⟨x, hx, hxid⟩ := List.mem_map.1 hmem
    have hm := mem_dbListMessages hx
    exact hdead x hm.1 ⟨hxid, hm.2⟩

/-- Witness for the amended C4 at the one-row system. -/
theorem deleteSoftDeletesAndHidesRecord_witness :
    (DeleteMessage envOk 2 stateOne 1).1 = .ok ()
      ∧ (GetMessage envOk (DeleteMessage envOk 2 stateOne 1).2 1).1
          = .error SvcErr.notFound := by
  have h := deleteSoftDeletesAndHidesRecord envOk envOk 2 stateOne 1
    rowOne rfl rfl rfl (by decide) (by decide) (by decide)
  exact ⟨h.1, h.2.2.2.1⟩

end GoBoilerplate
